import Mathlib

set_option maxHeartbeats 1000000

/-!
Verification development for `midiparser.py` (Python 2.7), the single source
file of the `l1midiparser` repository.

Shallow-embedding conventions:

* Python 2 integers are `Int`.  Python 2's `/` on ints is flooring division,
  embedded as `Int.fdiv`; Python 2's `%` with the positive constant modulus
  `len(valid_notes) = 12` agrees with Lean's `Int.emod` (result in `[0, 12)`),
  which is used for the pitch-class index.
* A `MidiNote` *object* is a value plus an identity: Python 2 objects that
  define `__eq__` but no `__hash__` keep the default `id`-based hash, so the
  `Counter`/dict machinery in `_convert` distinguishes notes by object
  identity.  A timeline entry is therefore a `Cell := Nat × MidiNote`, the
  `Nat` being an allocation tag standing for `id(obj)`: `_create_timeline`
  appends *the same* queued object repeatedly on a NoteOff, while every rest
  created by `MidiNote()` is a fresh object.
* `Counter(sub_timeline).most_common(1)` in Python 2.7 is
  `heapq.nlargest(1, dict.iteritems(), key=count)`, i.e. `max` over the
  dict's key enumeration order with a strictly-greater replacement test.
  The enumeration order of a Python 2 dict keyed by `id`-hashed objects
  depends on memory addresses, so the embedding is parametrised by an
  enumeration oracle `ord : List Cell → List Cell`; `ValidOrd` states
  exactly what the dict guarantees (all distinct keys, each once).
* Exceptions are `Except PyErr`: `zeroDivision` for `ZeroDivisionError`
  (`/` by zero), `indexError` for `IndexError` (bad list index, and
  `most_common(1)[0]` on an empty window).
-/

namespace L1Midi

/-- Python exceptions that the embedded fragment can raise. -/
inductive PyErr : Type where
  | zeroDivision : PyErr
  | indexError : PyErr
deriving DecidableEq, Repr

/-- `MidiNote.valid_notes` from `MidiNote.__init__`. -/
def validNotes : List String :=
  ["C", "Db", "D", "Eb", "E", "F", "Gb", "G", "Ab", "A", "Bb", "B"]

/-- The stored attributes of a `MidiNote` object: `self.note` (pitch-class
string, `"1"` for a rest), `self.level` (octave string, `""` for a rest)
and `self.velocity`. -/
structure MidiNote : Type where
  note : String
  level : String
  velocity : Int
deriving DecidableEq, Repr, Inhabited

/-- `MidiNote.__init__(value, velocity)`.  `value = None` gives the rest
sentinel `note = "1"`, `level = ""`.  Otherwise
`note = valid_notes[value % len(valid_notes)]` (Python `%` with the positive
modulus 12 is `Int.emod`) and `level = str(value / len(valid_notes))`
(Python 2 `/` is flooring division, `Int.fdiv`). -/
def MidiNote.init (value : Option Int) (velocity : Int) : MidiNote :=
  match value with
  | none => ⟨"1", "", velocity⟩
  | some v =>
      ⟨validNotes.getD (v % (validNotes.length : Int)).toNat "",
       toString (Int.fdiv v (validNotes.length : Int)),
       velocity⟩

/-- `MidiNote.__eq__`: compares `self.note` and `self.velocity` only
(`self.level` is not compared). -/
def MidiNote.eq (a b : MidiNote) : Bool :=
  a.note == b.note && a.velocity == b.velocity

/-- `MidiNote.read_note`: `"%s%s" % (self.note, self.level)`. -/
def MidiNote.read_note (n : MidiNote) : String :=
  n.note ++ n.level

/-- `MidiNote.read_velocity`. -/
def MidiNote.read_velocity (n : MidiNote) : Int :=
  n.velocity

/-- A timeline entry: an object-identity tag (`id`) paired with the
`MidiNote` value it holds. -/
abbrev Cell : Type := Nat × MidiNote

/-- One decoded MIDI event, as delivered by the external `midi` package:
`NoteOnEvent` (with `tick`, `pitch`, `velocity`), `NoteOffEvent` (only its
`tick` is read by the handler), or any other event kind (ignored by
`_create_timeline`). -/
inductive MidiEvent : Type where
  | noteOn (tick : Nat) (pitch : Int) (velocity : Int) : MidiEvent
  | noteOff (tick : Nat) : MidiEvent
  | other : MidiEvent
deriving DecidableEq, Repr

/-- The decoded input file: `resolution` (ticks per beat) plus the per-track
event lists. -/
structure MidiFile : Type where
  resolution : Int
  tracks : List (List MidiEvent)
deriving Repr

/-- State of the inner loop of `_create_timeline` for one track:
the timeline built so far, the `queued_note` slot (`None` initially), and
the next free allocation tag. -/
structure TLState : Type where
  timeline : List Cell
  queued : Option Cell
  next_id : Nat
deriving Repr

/-- `d` fresh rest objects `MidiNote()`, with consecutive allocation tags
starting at `s` (each loop iteration of the pause loop, and each evaluation
of `queued_note or MidiNote()` with `queued_note = None`, allocates a new
object). -/
def freshRests (s : Nat) (d : Nat) : List Cell :=
  (List.range d).map (fun k => (s + k, MidiNote.init none 0))

/-- One iteration of the event loop of `_create_timeline`.
On `NoteOnEvent`: `queued_note = MidiNote(event.pitch, event.velocity)`
(one fresh object), then `event.tick` fresh rests are appended.
On `NoteOffEvent`: `event.tick` copies of `queued_note or MidiNote()` are
appended — the *same* queued object each iteration when one is queued,
a fresh rest object per iteration otherwise.  Other events are skipped. -/
def timelineStep (st : TLState) (e : MidiEvent) : TLState :=
  match e with
  | .noteOn d p v =>
      ⟨st.timeline ++ freshRests (st.next_id + 1) d,
       some (st.next_id, MidiNote.init (some p) v),
       st.next_id + 1 + d⟩
  | .noteOff d =>
      match st.queued with
      | some c => ⟨st.timeline ++ List.replicate d c, st.queued, st.next_id⟩
      | none => ⟨st.timeline ++ freshRests st.next_id d, none, st.next_id + d⟩
  | .other => st

/-- The dense timeline `_create_timeline` builds for one track. -/
def trackTimeline (events : List MidiEvent) : List Cell :=
  (events.foldl timelineStep ⟨[], none, 0⟩).timeline

/-- `MidiHandler._create_timeline`: one timeline per track, dropping the
timelines with `len(track_timeline) == 0`. -/
def createTimelines (tracks : List (List MidiEvent)) : List (List Cell) :=
  (tracks.map trackTimeline).filter (fun t => 0 < t.length)

/-- The Python `for`-loop over a list that can raise: stops at the first
raised exception, otherwise collects all results in order. -/
def pyMapE {α β : Type} (f : α → Except PyErr β) : List α → Except PyErr (List β)
  | [] => .ok []
  | a :: as =>
      match f a with
      | .error e => .error e
      | .ok b =>
          match pyMapE f as with
          | .error e => .error e
          | .ok bs => .ok (b :: bs)

/-- The slice `timeline[beat*beat_resolution : (beat+1)*beat_resolution]`
(only evaluated on the path where at least one beat exists, hence
`beat_resolution ≥ 1` and the slice bounds are the clamped nonnegative
`drop`/`take`). -/
def beatWindow (timeline : List Cell) (br : Int) (beat : Nat) : List Cell :=
  (timeline.drop (beat * br.toNat)).take br.toNat

/-- Python 2's `max(iterable, key=count_in_w)` over an enumeration of dict
keys: keeps the current best and replaces it only on a strictly greater
count — the first key attaining the maximal count in enumeration order
wins. -/
def pyMax (w : List Cell) (best : Cell) : List Cell → Cell
  | [] => best
  | c :: rest =>
      if w.count best < w.count c then pyMax w c rest else pyMax w best rest

/-- `Counter(w).most_common(1)[0][0]` under the key-enumeration oracle
`ord`: `none` models the `IndexError` of `[0]` on an empty counter. -/
def winnerCell (ord : List Cell → List Cell) (w : List Cell) : Option Cell :=
  match ord w with
  | [] => none
  | c :: rest => some (pyMax w c rest)

/-- What a Python 2 dict guarantees about its key enumeration order for the
`Counter` of a window `w`: every distinct cell of `w` appears exactly once
(the order itself depends on `id`-based hashing, i.e. memory layout, and is
left arbitrary). -/
def ValidOrd (ord : List Cell → List Cell) : Prop :=
  ∀ w : List Cell, (ord w).Nodup ∧ ∀ c : Cell, c ∈ ord w ↔ c ∈ w

/-- The body of `MidiHandler._convert` for one timeline:
`num_beats = len(timeline) / beat_resolution` (flooring division, a
`ZeroDivisionError` if `beat_resolution == 0`; a negative `num_beats` makes
`range(num_beats)` empty, embedded via `Int.toNat`), then one winning note
per beat window. -/
def convertTimeline (ord : List Cell → List Cell) (br : Int)
    (timeline : List Cell) : Except PyErr (List MidiNote) :=
  if br = 0 then .error .zeroDivision
  else
    pyMapE
      (fun beat =>
        match winnerCell ord (beatWindow timeline br beat) with
        | some c => .ok c.2
        | none => .error .indexError)
      (List.range ((Int.fdiv (timeline.length : Int) br).toNat))

/-- The attributes of a built `MidiHandler`. -/
structure MidiHandler : Type where
  midi_resolution : Int
  sample_rate : Int
  beat_resolution : Int
  include_pauses : Bool
  timelines : List (List Cell)
  tracks : List (List MidiNote)
deriving Repr, Inhabited

/-- `MidiHandler.__init__` after the external decode step:
`beat_resolution = midi_resolution / sample_rate` (flooring division, a
`ZeroDivisionError` when `sample_rate == 0`), then `_create_timeline`
followed by `_convert` over every stored timeline. -/
def MidiHandler.build (file : MidiFile) (sample_rate : Int)
    (include_pauses : Bool) (ord : List Cell → List Cell) :
    Except PyErr MidiHandler :=
  if sample_rate = 0 then .error .zeroDivision
  else
    match pyMapE (convertTimeline ord (Int.fdiv file.resolution sample_rate))
        (createTimelines file.tracks) with
    | .error e => .error e
    | .ok tks =>
        .ok ⟨file.resolution, sample_rate,
             Int.fdiv file.resolution sample_rate, include_pauses,
             createTimelines file.tracks, tks⟩

/-- `MidiHandler.num_tracks`. -/
def MidiHandler.num_tracks (h : MidiHandler) : Nat :=
  h.tracks.length

/-- Python list indexing `l[i]`: indices in `[0, len)` read directly,
indices in `[-len, 0)` wrap around, everything else is an `IndexError`
(`none`). -/
def pyIndex {α : Type} (l : List α) (i : Int) : Option α :=
  if 0 ≤ i then l.get? i.toNat
  else if i + (l.length : Int) < 0 then none
  else l.get? (i + (l.length : Int)).toNat

/-- `MidiHandler.get_notes`: `self.tracks[track]` mapped through
`read_note`. -/
def MidiHandler.get_notes (h : MidiHandler) (track : Int) :
    Except PyErr (List String) :=
  match pyIndex h.tracks track with
  | some t => .ok (t.map MidiNote.read_note)
  | none => .error .indexError

/-- `MidiHandler.get_velocities`: `self.tracks[track]` mapped through
`read_velocity`. -/
def MidiHandler.get_velocities (h : MidiHandler) (track : Int) :
    Except PyErr (List Int) :=
  match pyIndex h.tracks track with
  | some t => .ok (t.map MidiNote.read_velocity)
  | none => .error .indexError

/-- A dict enumeration oracle that lists each distinct cell once, in
`List.dedup` order. -/
def ordDedup : List Cell → List Cell :=
  fun w => w.dedup

/-- A dict enumeration oracle that lists the distinct cells in the reversed
order — equally legitimate for an address-hashed Python 2 dict. -/
def ordRev : List Cell → List Cell :=
  fun w => w.dedup.reverse

/-- A one-note demo track: `NoteOn(tick=0, pitch=60, velocity=100)`
followed by `NoteOff(tick=1)`. -/
def eventsDemo : List MidiEvent :=
  [.noteOn 0 60 100, .noteOff 1]

/-- A one-track demo input with resolution 1. -/
def demoFile : MidiFile :=
  ⟨1, [eventsDemo]⟩

/-- The handler that `MidiHandler.build demoFile 1 True` yields: one
one-tick timeline and one one-beat track holding `Note(60, 100)`. -/
def demoHandler : MidiHandler :=
  ⟨1, 1, 1, true, [[(0, MidiNote.init (some 60) 100)]],
   [[MidiNote.init (some 60) 100]]⟩

/-- The handler that `MidiHandler.build demoFile (-1) True` yields:
construction completes with `beat_resolution = -1` and an empty beat
track. -/
def demoHandlerNeg : MidiHandler :=
  ⟨1, -1, -1, true, [[(0, MidiNote.init (some 60) 100)]], [[]]⟩

/-- Events whose timeline is `[A, A, B, B]` with `A = Note(60,100)` first:
used for the Downsampler tie-break analysis. -/
def eventsC2 : List MidiEvent :=
  [.noteOn 0 60 100, .noteOff 2, .noteOn 0 64 100, .noteOff 2]

/-- Events whose timeline is `[A, A, B]`: the `A` object is the unique
identity-count maximiser of its window. -/
def eventsUniq : List MidiEvent :=
  [.noteOn 0 60 100, .noteOff 2, .noteOn 0 64 100, .noteOff 1]

/-- Events whose timeline is three rests followed by `Note(60,100)` twice:
used for the Downsampler majority analysis. -/
def eventsC5 : List MidiEvent :=
  [.noteOn 3 60 100, .noteOff 2]

/-! Helper lemmas. -/

/-- `len(valid_notes)` is 12. -/
theorem validNotes_length_int : (validNotes.length : Int) = 12 := rfl

/-- Distinct indices below 12 select distinct pitch-class strings. -/
theorem validNotes_getD_injective :
    ∀ a : Nat, a < 12 → ∀ b : Nat, b < 12 →
      (validNotes.getD a "" = validNotes.getD b "" ↔ a = b) := by decide

/-- No pitch-class string is the rest sentinel `"1"`. -/
theorem validNotes_getD_ne_one :
    ∀ a : Nat, a < 12 → validNotes.getD a "" ≠ "1" := by decide

/-- No pitch-class string starts with the character `'1'`. -/
theorem validNotes_getD_head :
    ∀ a : Nat, a < 12 → (validNotes.getD a "").data.head? ≠ some '1' := by decide

/-- Every pitch-class string is nonempty. -/
theorem validNotes_getD_data_ne_nil :
    ∀ a : Nat, a < 12 → (validNotes.getD a "").data ≠ [] := by decide

/-- The pitch-class index `pitch % 12` lies in `[0, 12)`. -/
theorem emod_twelve (p : Int) :
    0 ≤ p % (12 : Int) ∧ p % (12 : Int) < 12 ∧ (p % (12 : Int)).toNat < 12 := by
  have h1 : 0 ≤ p % (12 : Int) := Int.emod_nonneg p (by decide)
  have h2 : p % (12 : Int) < 12 := Int.emod_lt_of_pos p (by decide)
  exact ⟨h1, h2, by omega⟩

/-- A string whose first character is not `'1'` never equals `"1"` after
appending anything. -/
theorem append_ne_one {s : String} (t : String)
    (hh : s.data.head? ≠ some '1') (hne : s.data ≠ []) : s ++ t ≠ "1" := by
  intro hcontra
  have hd : ("1" : String).data = s.data ++ t.data := by
    rw [← hcontra]; exact String.data_append s t
  cases hs : s.data with
  | nil => exact hne hs
  | cons c cs =>
      rw [hs] at hd
      have hc : c = '1' := by
        have : ('1' : Char) :: [] = c :: (cs ++ t.data) := by simpa using hd
        exact (List.cons.injEq _ _ _ _ ▸ this).1.symm
      rw [hs, hc] at hh
      exact hh rfl

/-- The per-tick values of a block of fresh rests. -/
theorem freshRests_map_snd (s d : Nat) :
    (freshRests s d).map Prod.snd = List.replicate d (MidiNote.init none 0) := by
  rw [freshRests, List.map_map]
  rw [show (Prod.snd ∘ fun k : Nat => ((s + k : Nat), MidiNote.init none 0))
        = fun _ : Nat => MidiNote.init none 0 from rfl]
  rw [List.map_const', List.length_range]

/-- If the loop of `pyMapE` finishes without an exception, its results line
up index by index with the inputs. -/
theorem pyMapE_ok_get {α β : Type} {f : α → Except PyErr β} :
    ∀ {l : List α} {r : List β}, pyMapE f l = .ok r →
      ∀ (i : Nat) (b : β), r.get? i = some b →
        ∃ a, l.get? i = some a ∧ f a = .ok b := by
  intro l
  induction l with
  | nil =>
      intro r hr i b hb
      rw [pyMapE] at hr
      cases hr
      simp at hb
  | cons a as ih =>
      intro r hr i b hb
      rw [pyMapE] at hr
      cases hfa : f a with
      | error e => rw [hfa] at hr; cases hr
      | ok b0 =>
          rw [hfa] at hr
          cases hrest : pyMapE f as with
          | error e => rw [hrest] at hr; cases hr
          | ok bs =>
              rw [hrest] at hr
              cases hr
              cases i with
              | zero =>
                  simp at hb
                  exact ⟨a, by simp, hb ▸ hfa⟩
              | succ n =>
                  simp only [List.get?_cons_succ] at hb ⊢
                  exact ih hrest n b hb

/-- If every loop body succeeds, `pyMapE` succeeds and keeps the length. -/
theorem pyMapE_ok_of {α β : Type} (f : α → Except PyErr β) :
    ∀ l : List α, (∀ a ∈ l, ∃ b, f a = .ok b) →
      ∃ r, pyMapE f l = .ok r ∧ r.length = l.length := by
  intro l
  induction l with
  | nil => intro _; exact ⟨[], rfl, rfl⟩
  | cons a as ih =>
      intro h
      obtain ⟨b, hb⟩ := h a (by simp)
      obtain ⟨r, hr, hlen⟩ := ih (fun x hx => h x (by simp [hx]))
      refine ⟨b :: r, ?_, by simp [hlen]⟩
      rw [pyMapE, hb, hr]

/-- If some loop body of `pyMapE` raises and all bodies before it succeed,
the loop raises (Python stops at the first exception). -/
theorem pyMapE_error_head {α β : Type} (f : α → Except PyErr β)
    (a : α) (l : List α) (e : PyErr) (ha : f a = .error e) :
    pyMapE f (a :: l) = .error e := by
  rw [pyMapE, ha]

/-- `max(..., key=...)` returns one of the enumerated keys. -/
theorem pyMax_mem (w : List Cell) :
    ∀ (l : List Cell) (best : Cell), pyMax w best l ∈ best :: l := by
  intro l
  induction l with
  | nil => intro best; simp [pyMax]
  | cons c rest ih =>
      intro best
      rw [pyMax]
      by_cases h : w.count best < w.count c
      · rw [if_pos h]
        have hm := ih c
        simp only [List.mem_cons] at hm ⊢
        tauto
      · rw [if_neg h]
        have hm := ih best
        simp only [List.mem_cons] at hm ⊢
        tauto

/-- `max(..., key=count)` attains the maximal count among the enumerated
keys. -/
theorem pyMax_count (w : List Cell) :
    ∀ (l : List Cell) (best : Cell), ∀ d ∈ best :: l,
      w.count d ≤ w.count (pyMax w best l) := by
  intro l
  induction l with
  | nil =>
      intro best d hd
      simp at hd
      subst hd
      simp [pyMax]
  | cons c rest ih =>
      intro best d hd
      rw [pyMax]
      rcases List.mem_cons.mp hd with heq | hd'
      · subst heq
        by_cases h : w.count d < w.count c
        · rw [if_pos h]
          exact le_trans (le_of_lt h) (ih c c (by simp))
        · rw [if_neg h]
          exact ih d d (by simp)
      · rcases List.mem_cons.mp hd' with heq | hd''
        · subst heq
          by_cases h : w.count best < w.count d
          · rw [if_pos h]
            exact ih d d (by simp)
          · rw [if_neg h]
            exact le_trans (Nat.not_lt.mp h) (ih best best (by simp))
        · by_cases h : w.count best < w.count c
          · rw [if_pos h]
            exact ih c d (by simp [hd''])
          · rw [if_neg h]
            exact ih best d (by simp [hd''])

/-- Under any legitimate dict enumeration, the winner of a window is one of
the window's cells. -/
theorem winnerCell_mem {ord : List Cell → List Cell} (hord : ValidOrd ord)
    {w : List Cell} {c : Cell} (hw : winnerCell ord w = some c) : c ∈ w := by
  rw [winnerCell] at hw
  cases he : ord w with
  | nil => rw [he] at hw; cases hw
  | cons h t =>
      rw [he] at hw
      cases hw
      have hm : pyMax w h t ∈ h :: t := pyMax_mem w t h
      have hiff := (hord w).2 (pyMax w h t)
      rw [he] at hiff
      exact hiff.mp hm

/-- Under any legitimate dict enumeration, the winner of a window attains
the maximal identity-count within the window. -/
theorem winnerCell_count {ord : List Cell → List Cell} (hord : ValidOrd ord)
    {w : List Cell} {c : Cell} (hw : winnerCell ord w = some c) :
    ∀ d ∈ w, w.count d ≤ w.count c := by
  intro d hd
  rw [winnerCell] at hw
  cases he : ord w with
  | nil => rw [he] at hw; cases hw
  | cons h t =>
      rw [he] at hw
      cases hw
      have hdm : d ∈ ord w := ((hord w).2 d).mpr hd
      rw [he] at hdm
      exact pyMax_count w t h d hdm

/-- A nonempty window always has a winner (no `IndexError` from
`most_common(1)[0]`). -/
theorem winnerCell_isSome {ord : List Cell → List Cell} (hord : ValidOrd ord)
    {w : List Cell} (hw : w ≠ []) : ∃ c, winnerCell ord w = some c := by
  cases he : ord w with
  | nil =>
      obtain ⟨x, hx⟩ := List.exists_mem_of_ne_nil w hw
      have hiff := ((hord w).2 x).mpr hx
      rw [he] at hiff
      cases hiff
  | cons h t => exact ⟨pyMax w h t, by rw [winnerCell, he]⟩

/-- `List.dedup` is a legitimate dict key enumeration. -/
theorem ordDedup_valid : ValidOrd ordDedup :=
  fun w => ⟨List.nodup_dedup w, fun _ => List.mem_dedup⟩

/-- The reversed `List.dedup` is a legitimate dict key enumeration. -/
theorem ordRev_valid : ValidOrd ordRev := by
  intro w
  constructor
  · exact List.nodup_reverse.mpr (List.nodup_dedup w)
  · intro c
    show c ∈ w.dedup.reverse ↔ c ∈ w
    rw [List.mem_reverse, List.mem_dedup]

/-- Python list indexing returns `IndexError` exactly outside
`[-len, len)`. -/
theorem pyIndex_none_iff {α : Type} (l : List α) (i : Int) :
    pyIndex l i = none
      ↔ ((l.length : Int) ≤ i ∨ i + (l.length : Int) < 0) := by
  rw [pyIndex]
  by_cases h0 : 0 ≤ i
  · rw [if_pos h0, List.get?_eq_none]
    omega
  · rw [if_neg h0]
    by_cases h1 : i + (l.length : Int) < 0
    · rw [if_pos h1]
      constructor
      · intro _; exact Or.inr h1
      · intro _; rfl
    · rw [if_neg h1, List.get?_eq_none]
      omega

/-- Flooring division of a positive by a negative integer is negative. -/
theorem fdiv_pos_neg {a b : Int} (ha : 0 < a) (hb : b < 0) :
    Int.fdiv a b < 0 := by
  obtain ⟨m, rfl⟩ : ∃ m : Nat, a = ((m + 1 : Nat) : Int) :=
    ⟨(a - 1).toNat, by omega⟩
  obtain ⟨n, rfl⟩ : ∃ n : Nat, b = Int.negSucc n :=
    ⟨(-b - 1).toNat, by rw [Int.negSucc_eq]; omega⟩
  rw [show Int.fdiv ((m + 1 : Nat) : Int) (Int.negSucc n)
        = Int.negSucc (m / (n + 1)) from rfl]
  exact Int.negSucc_lt_zero _

/-- Flooring division of a `Nat` by a positive integer, as a `Nat`. -/
theorem fdiv_toNat_pos {m : Nat} {b : Int} (hb : 0 < b) :
    (Int.fdiv (m : Int) b).toNat = m / b.toNat := by
  obtain ⟨k, rfl⟩ : ∃ k : Nat, b = (k : Int) := ⟨b.toNat, by omega⟩
  rw [← Int.ofNat_fdiv, Int.toNat_natCast, Int.toNat_natCast]

/-- Every fully contained beat window is nonempty. -/
theorem beatWindow_ne_nil {tl : List Cell} {br : Int} {beat : Nat}
    (hbr : 0 < br) (hbeat : beat < tl.length / br.toNat) :
    beatWindow tl br beat ≠ [] := by
  have hb : 0 < br.toNat := by omega
  have hmul : (beat + 1) * br.toNat ≤ tl.length :=
    (Nat.le_div_iff_mul_le hb).mp hbeat
  rw [Nat.add_mul, Nat.one_mul] at hmul
  have hlen : (beatWindow tl br beat).length = br.toNat := by
    rw [beatWindow, List.length_take, List.length_drop]
    omega
  intro hnil
  rw [hnil] at hlen
  simp at hlen
  omega

/-- With a negative `beat_resolution`, `num_beats` is negative, so
`range(num_beats)` is empty and `_convert` produces an empty beat track
without raising. -/
theorem convertTimeline_neg_br {ord : List Cell → List Cell} {br : Int}
    (hbr : br < 0) (t : List Cell) :
    convertTimeline ord br t = .ok [] := by
  rw [convertTimeline, if_neg (by omega)]
  have hnb : (Int.fdiv (t.length : Int) br).toNat = 0 := by
    have h1 : (0 : Int) ≤ (t.length : Int) := by omega
    have h2 : br ≤ 0 := by omega
    have := Int.fdiv_nonpos h1 h2
    omega
  rw [hnb]
  rfl

/-- A beat-track entry produced by `_convert` is the winner of its
window. -/
theorem convertTimeline_entry {ord : List Cell → List Cell} {br : Int}
    {tl : List Cell} {track : List MidiNote} {beat : Nat} {n : MidiNote}
    (hc : convertTimeline ord br tl = .ok track)
    (hn : track.get? beat = some n) :
    ∃ c : Cell, winnerCell ord (beatWindow tl br beat) = some c
      ∧ c.2 = n := by
  rw [convertTimeline] at hc
  by_cases hbr : br = 0
  · rw [if_pos hbr] at hc; cases hc
  · rw [if_neg hbr] at hc
    obtain ⟨a, ha, hfa⟩ := pyMapE_ok_get hc beat n hn
    obtain ⟨hlt, hget⟩ := List.get?_eq_some.mp ha
    rw [List.get_range] at hget
    rw [← hget] at hfa
    have hfa' : (match winnerCell ord (beatWindow tl br beat) with
        | some c => Except.ok c.2
        | none => Except.error PyErr.indexError) = Except.ok n := hfa
    cases hw : winnerCell ord (beatWindow tl br beat) with
    | none =>
        rw [hw] at hfa'
        simp at hfa'
    | some c =>
        rw [hw] at hfa'
        simp at hfa'
        exact ⟨c, rfl, hfa'⟩

/-! Claim theorems. -/

/-- Claim C1 is false on the code: `MidiNote.__eq__` compares only the
pitch-class string `self.note` and `self.velocity`, never the octave
`self.level`.  Pitches 60 and 72 share the pitch class `C`, so
`Note(60,100) == Note(72,100)` is `True`, although the two objects carry
different absolute pitches (levels `"5"` and `"6"`). -/
theorem c1_counterexample :
    MidiNote.eq (MidiNote.init (some 60) 100) (MidiNote.init (some 72) 100)
        = true
      ∧ (60 : Int) ≠ 72
      ∧ MidiNote.init (some 60) 100 ≠ MidiNote.init (some 72) 100
      ∧ (MidiNote.init (some 60) 100).level = "5"
      ∧ (MidiNote.init (some 72) 100).level = "6" := by
  exact ⟨by decide, by decide, by decide, by decide, by decide⟩

/-- Claim C1 amended: two real Notes are `__eq__`-equal iff their pitches
agree modulo 12 (same pitch-class name) and their velocities agree — the
octave is ignored; a rest equals a rest iff the velocities agree; a rest
never equals a real note (no pitch-class string is `"1"`). -/
theorem c1_amended_eq_rule (p q v w : Int) :
    (MidiNote.eq (MidiNote.init (some p) v) (MidiNote.init (some q) w) = true
        ↔ (p % 12 = q % 12 ∧ v = w))
      ∧ (MidiNote.eq (MidiNote.init none v) (MidiNote.init none w) = true
          ↔ v = w)
      ∧ MidiNote.eq (MidiNote.init none v) (MidiNote.init (some q) w) = false
      ∧ MidiNote.eq (MidiNote.init (some p) v) (MidiNote.init none w)
          = false := by
  refine ⟨?_, ?_, ?_, ?_⟩
  · simp only [MidiNote.eq, MidiNote.init, validNotes_length_int,
      Bool.and_eq_true, beq_iff_eq]
    constructor
    · rintro ⟨h1, h2⟩
      refine ⟨?_, h2⟩
      have hinj := (validNotes_getD_injective _ (emod_twelve p).2.2
        _ (emod_twelve q).2.2).mp h1
      have hp := emod_twelve p
      have hq := emod_twelve q
      omega
    · rintro ⟨h1, h2⟩
      have ht : (p % (12 : Int)).toNat = (q % (12 : Int)).toNat := by omega
      rw [ht]
      exact ⟨rfl, h2⟩
  · simp [MidiNote.eq, MidiNote.init]
  · have hne : "1" ≠ validNotes.getD ((q % (12 : Int)).toNat) "" :=
      fun h => validNotes_getD_ne_one _ (emod_twelve q).2.2 h.symm
    simp only [MidiNote.eq, MidiNote.init, validNotes_length_int]
    rw [show (("1" : String)
          == validNotes.getD ((q % (12 : Int)).toNat) "") = false from
        beq_eq_false_iff_ne.mpr hne]
    rw [Bool.false_and]
  · have hne : validNotes.getD ((p % (12 : Int)).toNat) "" ≠ "1" :=
      validNotes_getD_ne_one _ (emod_twelve p).2.2
    simp only [MidiNote.eq, MidiNote.init, validNotes_length_int]
    rw [show ((validNotes.getD ((p % (12 : Int)).toNat) "")
          == ("1" : String)) = false from beq_eq_false_iff_ne.mpr hne]
    rw [Bool.false_and]

/-- Claim C6: `_create_timeline` processes events in order; a NoteOn with
delta `d`, pitch `p`, velocity `v` appends exactly `d` rest values and sets
the queued note to `Note(p, v)`; a NoteOff with delta `d` appends `d`
copies of the queued note's value (a rest when none is queued) and leaves
the queued slot unchanged; `d = 0` appends nothing (`replicate 0`); and for
the events `NoteOn(60) delta=0, NoteOn(64) delta=0, NoteOff delta=4` all
four appended ticks hold `Note(64, v)` — the second NoteOn silently wins. -/
theorem c6_timeline_step (st : TLState) (d : Nat) (p v : Int) :
    ((timelineStep st (.noteOn d p v)).timeline.map Prod.snd
        = st.timeline.map Prod.snd ++ List.replicate d (MidiNote.init none 0))
      ∧ ((timelineStep st (.noteOn d p v)).queued.map Prod.snd
          = some (MidiNote.init (some p) v))
      ∧ ((timelineStep st (.noteOff d)).timeline.map Prod.snd
          = st.timeline.map Prod.snd
              ++ List.replicate d
                  (match st.queued with
                   | some c => c.2
                   | none => MidiNote.init none 0))
      ∧ (timelineStep st (.noteOff d)).queued = st.queued
      ∧ ((trackTimeline [.noteOn 0 60 v, .noteOn 0 64 v, .noteOff 4]).map
            Prod.snd
          = List.replicate 4 (MidiNote.init (some 64) v)) := by
  obtain ⟨tl, q, nid⟩ := st
  refine ⟨?_, rfl, ?_, ?_, rfl⟩
  · show (tl ++ freshRests (nid + 1) d).map Prod.snd = _
    rw [List.map_append, freshRests_map_snd]
  · cases q with
    | some c =>
        show (tl ++ List.replicate d c).map Prod.snd = _
        rw [List.map_append, List.map_replicate]
    | none =>
        show (tl ++ freshRests nid d).map Prod.snd = _
        rw [List.map_append, freshRests_map_snd]
  · cases q <;> rfl

/-- Claim C8: a rest encodes to exactly `"1"`; a real note with pitch `p`
encodes to the pitch-class name chosen by `p mod 12` followed by the
decimal rendering of `p div 12` (pitch 60 encodes to `"C5"`); and no
non-negative pitch ever encodes to `"1"` (in fact the pitch-class name
never starts with `'1'`). -/
theorem c8_encoding (p v : Int) (hp : 0 ≤ p) :
    (MidiNote.init none v).read_note = "1"
      ∧ (MidiNote.init (some p) v).read_note
          = validNotes.getD ((p % (12 : Int)).toNat) ""
              ++ toString (Int.fdiv p 12)
      ∧ (MidiNote.init (some 60) 100).read_note = "C5"
      ∧ (MidiNote.init (some p) v).read_note ≠ "1" := by
  refine ⟨rfl, rfl, by decide, ?_⟩
  show validNotes.getD ((p % (validNotes.length : Int)).toNat) ""
      ++ toString (Int.fdiv p (validNotes.length : Int)) ≠ "1"
  rw [validNotes_length_int]
  exact append_ne_one _
    (validNotes_getD_head _ (emod_twelve p).2.2)
    (validNotes_getD_data_ne_nil _ (emod_twelve p).2.2)

/-- Claim C8 witness at pitch 60, velocity 100. -/
theorem c8_encoding_witness :
    (0 : Int) ≤ 60
      ∧ (MidiNote.init none 100).read_note = "1"
      ∧ (MidiNote.init (some 60) 100).read_note = "C5"
      ∧ (MidiNote.init (some 60) 100).read_note ≠ "1" := by
  have h := c8_encoding 60 100 (by decide)
  exact ⟨by decide, h.1, h.2.2.1, h.2.2.2⟩

/-- Claim C3 is false on the code: `self.tracks[track]` follows Python's
negative-index wrap-around.  On the one-track demo handler (which
`MidiHandler.build` really produces), index `-1` is outside `[0, 1)` yet
`get_notes`/`get_velocities` silently return the last track. -/
theorem c3_counterexample :
    MidiHandler.build demoFile 1 true ordDedup = .ok demoHandler
      ∧ demoHandler.num_tracks = 1
      ∧ (-1 : Int) < 0
      ∧ demoHandler.get_notes (-1) = .ok ["C5"]
      ∧ demoHandler.get_velocities (-1) = .ok [100] := by
  refine ⟨rfl, rfl, by decide, rfl, rfl⟩

/-- Claim C3 amended: the queries raise `IndexError` exactly when the index
is outside Python's accepted range `[-numTracks, numTracks)`; indices in
`[-numTracks, 0)` silently return the wrapped-around track instead of
failing. -/
theorem c3_amended_index_rule (h : MidiHandler) (i : Int) :
    (h.get_notes i = .error .indexError
        ↔ ((h.num_tracks : Int) ≤ i ∨ i + (h.num_tracks : Int) < 0))
      ∧ (h.get_velocities i = .error .indexError
          ↔ ((h.num_tracks : Int) ≤ i ∨ i + (h.num_tracks : Int) < 0)) := by
  have key := pyIndex_none_iff h.tracks i
  constructor
  · rw [MidiHandler.get_notes, MidiHandler.num_tracks]
    cases hp : pyIndex h.tracks i with
    | some t =>
        constructor
        · intro hx; cases hx
        · intro hx
          have hnone := key.mpr hx
          rw [hp] at hnone
          cases hnone
    | none =>
        constructor
        · intro _
          rw [hp] at key
          exact key.mp rfl
        · intro _; rfl
  · rw [MidiHandler.get_velocities, MidiHandler.num_tracks]
    cases hp : pyIndex h.tracks i with
    | some t =>
        constructor
        · intro hx; cases hx
        · intro hx
          have hnone := key.mpr hx
          rw [hp] at hnone
          cases hnone
    | none =>
        constructor
        · intro _
          rw [hp] at key
          exact key.mp rfl
        · intro _; rfl

/-- Claim C4 is false on the code: `sample_rate = -1 ≤ 0` is not rejected —
construction completes normally with `beat_resolution = -1` (negative, not
clamped), yielding an empty beat track. -/
theorem c4_counterexample :
    (-1 : Int) ≤ 0
      ∧ MidiHandler.build demoFile (-1) true ordDedup = .ok demoHandlerNeg
      ∧ demoHandlerNeg.beat_resolution = -1
      ∧ demoHandlerNeg.beat_resolution < 0 := by
  refine ⟨by decide, rfl, rfl, by decide⟩

/-- Claim C4 amended: there is no configuration check.  `sample_rate = 0`
raises `ZeroDivisionError` at the `beat_resolution` division;
`beat_resolution = 0` raises `ZeroDivisionError` inside `_convert`, but
only when at least one non-empty timeline exists; a negative `sample_rate`
is accepted and construction completes with a negative
`beat_resolution`. -/
theorem c4_amended_construction (file : MidiFile) (sr : Int) (ip : Bool)
    (ord : List Cell → List Cell) :
    (sr = 0 → MidiHandler.build file sr ip ord = .error .zeroDivision)
      ∧ (sr ≠ 0 → Int.fdiv file.resolution sr = 0 →
          createTimelines file.tracks ≠ [] →
          MidiHandler.build file sr ip ord = .error .zeroDivision)
      ∧ (sr < 0 → 0 < file.resolution →
          ((MidiHandler.build file sr ip ord).map MidiHandler.beat_resolution
              = .ok (Int.fdiv file.resolution sr)
            ∧ Int.fdiv file.resolution sr < 0)) := by
  refine ⟨?_, ?_, ?_⟩
  · intro h
    rw [MidiHandler.build, if_pos h]
  · intro h hbr htl
    have hmap : pyMapE (convertTimeline ord (Int.fdiv file.resolution sr))
        (createTimelines file.tracks) = .error .zeroDivision := by
      cases htls : createTimelines file.tracks with
      | nil => exact absurd htls htl
      | cons t ts =>
          rw [hbr]
          exact pyMapE_error_head _ t ts _
            (by rw [convertTimeline, if_pos rfl])
    rw [MidiHandler.build, if_neg h, hmap]
  · intro hsr hres
    have hbr : Int.fdiv file.resolution sr < 0 := fdiv_pos_neg hres hsr
    refine ⟨?_, hbr⟩
    obtain ⟨r, hr, _⟩ := pyMapE_ok_of
      (convertTimeline ord (Int.fdiv file.resolution sr))
      (createTimelines file.tracks)
      (fun t _ => ⟨[], convertTimeline_neg_br hbr t⟩)
    rw [MidiHandler.build, if_neg (by omega), hr]
    rfl

/-- Claim C4 witness: the three construction scenarios on `demoFile`
(`sample_rate` 0, 2 and -1). -/
theorem c4_amended_construction_witness :
    ((0 : Int) = 0
        ∧ MidiHandler.build demoFile 0 true ordDedup = .error .zeroDivision)
      ∧ ((2 : Int) ≠ 0 ∧ Int.fdiv demoFile.resolution 2 = 0
          ∧ createTimelines demoFile.tracks ≠ []
          ∧ MidiHandler.build demoFile 2 true ordDedup
              = .error .zeroDivision)
      ∧ ((-1 : Int) < 0 ∧ (0 : Int) < demoFile.resolution
          ∧ (MidiHandler.build demoFile (-1) true ordDedup).map
                MidiHandler.beat_resolution
              = .ok (Int.fdiv demoFile.resolution (-1))
          ∧ Int.fdiv demoFile.resolution (-1) < 0) := by
  refine ⟨⟨rfl, (c4_amended_construction demoFile 0 true ordDedup).1 rfl⟩,
    ⟨by decide, by decide, by decide,
      (c4_amended_construction demoFile 2 true ordDedup).2.1 (by decide)
        (by decide) (by decide)⟩,
    ⟨by decide, by decide,
      ((c4_amended_construction demoFile (-1) true ordDedup).2.2 (by decide)
        (by decide)).1,
      ((c4_amended_construction demoFile (-1) true ordDedup).2.2 (by decide)
        (by decide)).2⟩⟩

/-- Claim C9: the `include_pauses` flag is stored but never read.  Two
constructions from the same input, sample rate and dict enumeration that
differ only in the flag yield identical timelines, identical beat tracks,
and identical `get_notes`/`get_velocities` answers for every track index
(and they fail identically when construction fails). -/
theorem c9_include_pauses_noninterference (file : MidiFile) (sr : Int)
    (ord : List Cell → List Cell) (ip1 ip2 : Bool) :
    ((MidiHandler.build file sr ip1 ord).map MidiHandler.timelines
        = (MidiHandler.build file sr ip2 ord).map MidiHandler.timelines)
      ∧ ((MidiHandler.build file sr ip1 ord).map MidiHandler.tracks
          = (MidiHandler.build file sr ip2 ord).map MidiHandler.tracks)
      ∧ (∀ i : Int,
          (MidiHandler.build file sr ip1 ord).bind (fun h => h.get_notes i)
            = (MidiHandler.build file sr ip2 ord).bind
                (fun h => h.get_notes i))
      ∧ (∀ i : Int,
          (MidiHandler.build file sr ip1 ord).bind
              (fun h => h.get_velocities i)
            = (MidiHandler.build file sr ip2 ord).bind
                (fun h => h.get_velocities i)) := by
  by_cases hs : sr = 0
  · have hb : ∀ ip : Bool,
        MidiHandler.build file sr ip ord = .error .zeroDivision :=
      fun ip => by rw [MidiHandler.build, if_pos hs]
    rw [hb ip1, hb ip2]
    exact ⟨rfl, rfl, fun i => rfl, fun i => rfl⟩
  · have hb : ∀ ip : Bool, MidiHandler.build file sr ip ord =
        match pyMapE (convertTimeline ord (Int.fdiv file.resolution sr))
            (createTimelines file.tracks) with
        | .error e => .error e
        | .ok tks =>
            .ok ⟨file.resolution, sr, Int.fdiv file.resolution sr, ip,
                 createTimelines file.tracks, tks⟩ :=
      fun ip => by rw [MidiHandler.build, if_neg hs]
    rw [hb ip1, hb ip2]
    cases hm : pyMapE (convertTimeline ord (Int.fdiv file.resolution sr))
        (createTimelines file.tracks) with
    | error e => exact ⟨rfl, rfl, fun i => rfl, fun i => rfl⟩
    | ok tks => exact ⟨rfl, rfl, fun i => rfl, fun i => rfl⟩

/-- Claim C7: for a positive `beat_resolution` and any legitimate dict
enumeration, `_convert` succeeds on a non-empty timeline and the beat
track has exactly `floor(len(timeline) / beat_resolution)` entries — the
trailing partial window is discarded. -/
theorem c7_length_law (ord : List Cell → List Cell) (hord : ValidOrd ord)
    (br : Int) (tl : List Cell) (hbr : 0 < br) (htl : tl ≠ []) :
    (convertTimeline ord br tl).map List.length
      = .ok (tl.length / br.toNat) := by
  rw [convertTimeline, if_neg (by omega)]
  have hok : ∀ beat ∈ List.range ((Int.fdiv (tl.length : Int) br).toNat),
      ∃ b, (fun beat =>
          match winnerCell ord (beatWindow tl br beat) with
          | some c => Except.ok c.2
          | none => Except.error PyErr.indexError) beat = .ok b := by
    intro beat hbeat
    rw [List.mem_range, fdiv_toNat_pos hbr] at hbeat
    obtain ⟨c, hcw⟩ := winnerCell_isSome hord (beatWindow_ne_nil hbr hbeat)
    refine ⟨c.2, ?_⟩
    show (match winnerCell ord (beatWindow tl br beat) with
        | some c => Except.ok c.2
        | none => Except.error PyErr.indexError) = Except.ok c.2
    rw [hcw]
  obtain ⟨r, hr, hlen⟩ := pyMapE_ok_of _ _ hok
  rw [hr]
  show Except.ok r.length = Except.ok (tl.length / br.toNat)
  rw [hlen, List.length_range, fdiv_toNat_pos hbr]

/-- Claim C7 witness: the four-tick timeline of `eventsC2` with
`beat_resolution = 2` gives a beat track of length `4 / 2 = 2`. -/
theorem c7_length_law_witness :
    ValidOrd ordDedup ∧ (0 : Int) < 2 ∧ trackTimeline eventsC2 ≠ []
      ∧ (convertTimeline ordDedup 2 (trackTimeline eventsC2)).map
            List.length
          = .ok ((trackTimeline eventsC2).length / (2 : Int).toNat) :=
  ⟨ordDedup_valid, by decide, by decide,
    c7_length_law ordDedup ordDedup_valid 2 (trackTimeline eventsC2)
      (by decide) (by decide)⟩

/-- Claim C10: every beat-track entry produced by `_convert` is the value
of a cell actually occurring in its beat window — the Downsampler never
fabricates a note (and the entry is `__eq__`-equal to a window note, since
`__eq__` is reflexive). -/
theorem c10_winner_in_window (ord : List Cell → List Cell)
    (hord : ValidOrd ord) (br : Int) (tl : List Cell)
    (track : List MidiNote) (beat : Nat) (n : MidiNote)
    (hc : convertTimeline ord br tl = .ok track)
    (hn : track.get? beat = some n) :
    n ∈ (beatWindow tl br beat).map Prod.snd
      ∧ ((beatWindow tl br beat).map Prod.snd).any
          (fun m => MidiNote.eq n m) = true := by
  obtain ⟨c, hw, hcn⟩ := convertTimeline_entry hc hn
  have hcmem : c ∈ beatWindow tl br beat := winnerCell_mem hord hw
  have hmem : n ∈ (beatWindow tl br beat).map Prod.snd := by
    rw [← hcn]
    exact List.mem_map_of_mem Prod.snd hcmem
  refine ⟨hmem, ?_⟩
  rw [List.any_eq_true]
  exact ⟨n, hmem, by simp [MidiNote.eq]⟩

/-- Claim C10 witness on the demo track (one window, winner
`Note(60,100)`). -/
theorem c10_winner_in_window_witness :
    ValidOrd ordDedup
      ∧ convertTimeline ordDedup 1 (trackTimeline eventsDemo)
          = .ok [MidiNote.init (some 60) 100]
      ∧ [MidiNote.init (some 60) 100].get? 0
          = some (MidiNote.init (some 60) 100)
      ∧ MidiNote.init (some 60) 100
          ∈ (beatWindow (trackTimeline eventsDemo) 1 0).map Prod.snd
      ∧ ((beatWindow (trackTimeline eventsDemo) 1 0).map Prod.snd).any
          (fun m => MidiNote.eq (MidiNote.init (some 60) 100) m) = true := by
  have h := c10_winner_in_window ordDedup ordDedup_valid 1
    (trackTimeline eventsDemo) [MidiNote.init (some 60) 100] 0
    (MidiNote.init (some 60) 100) rfl rfl
  exact ⟨ordDedup_valid, rfl, rfl, h.1, h.2⟩

/-- Claim C2 is false on the code: the window of `eventsC2` holds
`[A, A, B, B]` with `A = Note(60,100)` occurring first and both values
occurring twice, yet under the (equally legitimate, address-dependent)
dict enumeration `ordRev` the Downsampler returns `B`, not the
earliest-first-occurrence `A`.  Python 2.7's `most_common(1)` takes
`max` over an unordered dict iteration, so no encounter-order tie-break
exists. -/
theorem c2_counterexample :
    ((trackTimeline eventsC2).map Prod.snd
        = [MidiNote.init (some 60) 100, MidiNote.init (some 60) 100,
           MidiNote.init (some 64) 100, MidiNote.init (some 64) 100])
      ∧ ((beatWindow (trackTimeline eventsC2) 4 0).map Prod.snd
          = [MidiNote.init (some 60) 100, MidiNote.init (some 60) 100,
             MidiNote.init (some 64) 100, MidiNote.init (some 64) 100])
      ∧ ((beatWindow (trackTimeline eventsC2) 4 0).map Prod.snd).count
            (MidiNote.init (some 60) 100) = 2
      ∧ ((beatWindow (trackTimeline eventsC2) 4 0).map Prod.snd).count
            (MidiNote.init (some 64) 100) = 2
      ∧ MidiNote.init (some 60) 100 ≠ MidiNote.init (some 64) 100
      ∧ ValidOrd ordRev
      ∧ convertTimeline ordRev 4 (trackTimeline eventsC2)
          = .ok [MidiNote.init (some 64) 100] := by
  refine ⟨by decide, by decide, by decide, by decide, by decide,
    ordRev_valid, rfl⟩

/-- Claim C2 amended: `most_common(1)` maximises the *identity* count over
the dict's enumeration order, which is address-dependent; on ties any
tied cell may win, so no encounter-order guarantee exists.  What does
hold: whenever one cell's identity-count strictly dominates every other
cell of the window, that cell's note wins under every legitimate
enumeration. -/
theorem c2_amended_unique_max (ord : List Cell → List Cell)
    (hord : ValidOrd ord) (br : Int) (tl : List Cell)
    (track : List MidiNote) (beat : Nat) (n : MidiNote) (c : Cell)
    (hc : convertTimeline ord br tl = .ok track)
    (hn : track.get? beat = some n)
    (hcmem : c ∈ beatWindow tl br beat)
    (huniq : ∀ d ∈ beatWindow tl br beat, d ≠ c →
        (beatWindow tl br beat).count d
          < (beatWindow tl br beat).count c) :
    n = c.2 := by
  obtain ⟨r, hw, hrn⟩ := convertTimeline_entry hc hn
  have hrmem : r ∈ beatWindow tl br beat := winnerCell_mem hord hw
  by_cases hrc : r = c
  · rw [← hrn, hrc]
  · have h1 := winnerCell_count hord hw c hcmem
    have h2 := huniq r hrmem hrc
    omega

/-- Claim C2 witness: in the `[A, A, B]` window of `eventsUniq`, the `A`
object's identity-count 2 strictly dominates, so `A` wins. -/
theorem c2_amended_unique_max_witness :
    ValidOrd ordDedup
      ∧ convertTimeline ordDedup 3 (trackTimeline eventsUniq)
          = .ok [MidiNote.init (some 60) 100]
      ∧ [MidiNote.init (some 60) 100].get? 0
          = some (MidiNote.init (some 60) 100)
      ∧ ((0 : Nat), MidiNote.init (some 60) 100)
          ∈ beatWindow (trackTimeline eventsUniq) 3 0
      ∧ (∀ d ∈ beatWindow (trackTimeline eventsUniq) 3 0,
          d ≠ ((0 : Nat), MidiNote.init (some 60) 100) →
          (beatWindow (trackTimeline eventsUniq) 3 0).count d
            < (beatWindow (trackTimeline eventsUniq) 3 0).count
                ((0 : Nat), MidiNote.init (some 60) 100))
      ∧ MidiNote.init (some 60) 100
          = ((0 : Nat), MidiNote.init (some 60) 100).2 := by
  refine ⟨ordDedup_valid, rfl, rfl, by decide, by decide, ?_⟩
  exact c2_amended_unique_max ordDedup ordDedup_valid 3
    (trackTimeline eventsUniq) [MidiNote.init (some 60) 100] 0
    (MidiNote.init (some 60) 100) ((0 : Nat), MidiNote.init (some 60) 100)
    rfl rfl (by decide) (by decide)

/-- Claim C5 exposes a code bug: `MidiNote` defines `__eq__` but (on
Python 2) no `__hash__`, so `Counter` keys fall back to `id`-based hashing
and `__eq__` is never consulted — occurrences are counted per *object*,
not per the §3 equality rule.  In the window of `eventsC5` the rest value
occurs 3 times (three distinct rest objects, each counted once) and
`Note(60,100)` occurs twice (one object appended twice); the code returns
`Note(60,100)`, whose equality-rule count 2 is not maximal (3 > 2). -/
theorem c5_identity_counting_bug :
    ((trackTimeline eventsC5).map Prod.snd
        = [MidiNote.init none 0, MidiNote.init none 0, MidiNote.init none 0,
           MidiNote.init (some 60) 100, MidiNote.init (some 60) 100])
      ∧ ((beatWindow (trackTimeline eventsC5) 5 0).map Prod.snd).countP
            (fun m => MidiNote.eq m (MidiNote.init none 0)) = 3
      ∧ ((beatWindow (trackTimeline eventsC5) 5 0).map Prod.snd).countP
            (fun m => MidiNote.eq m (MidiNote.init (some 60) 100)) = 2
      ∧ MidiNote.eq (MidiNote.init none 0) (MidiNote.init (some 60) 100)
          = false
      ∧ convertTimeline ordDedup 5 (trackTimeline eventsC5)
          = .ok [MidiNote.init (some 60) 100]
      ∧ (MidiHandler.build ⟨5, [eventsC5]⟩ 1 true ordDedup).map
            MidiHandler.tracks
          = .ok [[MidiNote.init (some 60) 100]] := by
  refine ⟨by decide, by decide, by decide, by decide, rfl, rfl⟩

end L1Midi
